import Mathlib

/-!
Verification development for PyZwaver's `driver.py` (the serial Z-Wave driver).

The pure parts of the source (the outbound priority queue `MessageQueueOut`,
the statistics renderer `MessageStatsString`, the per-iteration body of the
receiving thread and of the supervision wrapper `_run_child_thread`) are
embedded as executable Lean functions.  The stateful interaction of the
worker threads with the single in-flight message is embedded as labelled
transition systems.

Code that `driver.py` imports from the `zmessage` and `zwave` modules is not
part of this repository snapshot; those few definitions are modelled from the
specification and are marked `Modelled from the spec:` in their doc comments.
-/

/-- A destination node id; `none` mirrors Python's `None` node used by
barrier messages (`zmessage.Message(None, ...)`). -/
abbrev Node := Option Nat

/-- A priority triple `(level, count, node)` exactly as used by
`MessageQueueOut` (`driver.py` line 120: `level, count, node = priority`). -/
abbrev Prio := Nat × Nat × Node

/-- Default-0 lookup, mirroring `collections.defaultdict(int)` reads. -/
def lookupD (l : List (Node × Nat)) (k : Node) : Nat := (l.lookup k).getD 0

/-- Store a value under a key, mirroring `defaultdict` assignment. -/
def setA (l : List (Node × Nat)) (k : Node) (v : Nat) : List (Node × Nat) :=
  match l with
  | [] => [(k, v)]
  | (k', v') :: rest => if k' = k then (k, v) :: rest else (k', v') :: setA rest k v

/-- Default-0 lookup for the (possibly negative) per-node sizes. -/
def lookupZ (l : List (Node × Int)) (k : Node) : Int := (l.lookup k).getD 0

/-- Add `d` to the entry for `k`, mirroring `self._per_node_size[node] += 1`
and the `-= 1` in `get`. -/
def bumpZ (l : List (Node × Int)) (k : Node) (d : Int) : List (Node × Int) :=
  match l with
  | [] => [(k, d)]
  | (k', v') :: rest => if k' = k then (k, v' + d) :: rest else (k', v') :: bumpZ rest k d

/-- Strict order on destination components of a priority triple.  Python
compares the `node` components only when `level` and `count` are already
equal; comparing an `int` node with `None` there would raise `TypeError`.
No run in this development reaches a full `(level, count)` tie between a
`none` node and a `some` node, so returning `false` on the mixed case (and
on the `none`/`none` case) is immaterial for every theorem below. -/
def nodeLtB : Node → Node → Bool
  | some a, some b => a < b
  | _, _ => false

/-- Strict lexicographic order on `(level, count, node)` triples, as used by
`queue.PriorityQueue` on the tuples put by `MessageQueueOut.put`. -/
def prioLtB (p q : Prio) : Bool :=
  p.1 < q.1 || (p.1 = q.1 && (p.2.1 < q.2.1 || (p.2.1 = q.2.1 && nodeLtB p.2.2 q.2.2)))

/-- The outbound message queue state (`driver.py` lines 92-147).  Messages
are represented by `Nat` ids; the queue itself never inspects them.  The
backing `queue.PriorityQueue` is represented by the plain list `q` together
with a minimum-extraction `get`; two distinct coexisting entries never share
a full priority triple, so extraction order is exactly the heap's order. -/
structure MessageQueueOut where
  q : List (Prio × Nat) := []
  lo_counts : List (Node × Nat) := []
  hi_counts : List (Node × Nat) := []
  lo_min : Nat := 0
  hi_min : Nat := 0
  counter : Nat := 0
  per_node_size : List (Node × Int) := []
deriving DecidableEq, Repr

/-- The empty queue produced by `MessageQueueOut.__init__`. -/
def mqInit : MessageQueueOut := {}

/-- `MessageQueueOut.qsize` (`driver.py` line 107). -/
def MessageQueueOut.qsize (s : MessageQueueOut) : Nat := s.q.length

/-- `MessageQueueOut.qsize_for_node` (`driver.py` line 110). -/
def MessageQueueOut.qsize_for_node (s : MessageQueueOut) (n : Node) : Int :=
  lookupZ s.per_node_size n

/-- `MessageQueueOut.put` (`driver.py` lines 113-133): on an empty queue the
fairness counters and floors are reset; a level-2 (high) or level-3 (low)
entry gets the per-node counter advanced to `max(count + 1, floor)`; every
other level uses the strictly increasing global `_counter`. -/
def MessageQueueOut.put (s : MessageQueueOut) (priority : Prio) (message : Nat) :
    MessageQueueOut :=
  let s := if s.q.isEmpty then
      { s with lo_counts := [], hi_counts := [], lo_min := 0, hi_min := 0 }
    else s
  let level := priority.1
  let node := priority.2.2
  let (count, s) :=
    if level = 2 then
      let count := lookupD s.hi_counts node
      let count := max (count + 1) s.hi_min
      (count, { s with hi_counts := setA s.hi_counts node count })
    else if level = 3 then
      let count := lookupD s.lo_counts node
      let count := max (count + 1) s.lo_min
      (count, { s with lo_counts := setA s.lo_counts node count })
    else
      (s.counter, { s with counter := s.counter + 1 })
  let s := { s with per_node_size := bumpZ s.per_node_size node 1 }
  { s with q := s.q ++ [((level, count, node), message)] }

/-- Minimum entry of a non-empty collection under `prioLtB`, with the
first-seen entry kept on ties (coexisting full-triple ties do not occur). -/
def findMinEntry : Prio × Nat → List (Prio × Nat) → Prio × Nat
  | best, [] => best
  | best, e :: rest => findMinEntry (if prioLtB e.1 best.1 then e else best) rest

/-- `MessageQueueOut.get` (`driver.py` lines 135-143), additionally exposing
the served priority triple for the theorems below.  NOTE the second branch
`else if priority.1 = 2` mirrors the source's duplicated `elif level == 2:`
(line 140) verbatim: it is dead code, so `lo_min` is never updated. -/
def MessageQueueOut.getE (s : MessageQueueOut) :
    Option (Prio × Nat × MessageQueueOut) :=
  match s.q with
  | [] => none
  | e :: rest =>
    let best := findMinEntry e rest
    let priority := best.1
    let message := best.2
    let s := { s with q := s.q.erase best }
    let s :=
      if priority.1 = 2 then { s with hi_min := priority.2.1 }
      else if priority.1 = 2 then { s with lo_min := priority.2.1 }
      else s
    let s := { s with per_node_size := bumpZ s.per_node_size priority.2.2 (-1) }
    some (priority, message, s)

/-- `MessageQueueOut.get` as the source exposes it: just the message. -/
def MessageQueueOut.get (s : MessageQueueOut) : Option (Nat × MessageQueueOut) :=
  s.getE.map (fun r => (r.2.1, r.2.2))

/-- Repeatedly `get`, collecting the served `(priority, message)` pairs. -/
def drainE : Nat → MessageQueueOut → List (Prio × Nat) × MessageQueueOut
  | 0, s => ([], s)
  | n + 1, s =>
    match s.getE with
    | none => ([], s)
    | some (pr, m, s') =>
      let rest := drainE n s'
      ((pr, m) :: rest.1, rest.2)

/-- Modelled from the spec: `zmessage.LowestPriority()` is not under `src/`.
The spec's priority levels are expedited, high (= 2) and low (= 3), so the
lowest priority is the low level 3; the counter component is recomputed by
`put` for levels 2 and 3, and barrier messages are created with destination
`None` (`zmessage.Message(None, zmessage.LowestPriority(), ...)`). -/
def LowestPriority : Prio := (3, 0, none)

/-- All Boolean lists of a given length (used to enumerate the put
interleavings of Scenario B). -/
def boolLists : Nat → List (List Bool)
  | 0 => [[]]
  | n + 1 => (boolLists n).map (true :: ·) ++ (boolLists n).map (false :: ·)

/-- Scenario B put sequence: each `true` is a low-priority put by
destination 3, each `false` one by destination 7 (message ids irrelevant). -/
def scenarioBPuts : List Bool → MessageQueueOut → MessageQueueOut
  | [], s => s
  | b :: rest, s => scenarioBPuts rest (s.put (3, 0, if b then some 3 else some 7) 0)

/-- A priority that is strictly smaller in the lexicographic queue order has
a level that is at most the other's. -/
theorem prioLtB_level_true {p q : Prio} (h : prioLtB p q = true) : p.1 ≤ q.1 := by
  simp only [prioLtB, Bool.or_eq_true, Bool.and_eq_true, decide_eq_true_eq] at h
  rcases h with h | ⟨heq, _⟩
  · exact le_of_lt h
  · exact le_of_eq heq

/-- A priority that is not strictly smaller in the queue order has a level
that is at least the other's. -/
theorem prioLtB_level_false {p q : Prio} (h : prioLtB p q = false) : q.1 ≤ p.1 := by
  by_contra hc
  have hlt : p.1 < q.1 := by omega
  have htrue : prioLtB p q = true := by simp [prioLtB, hlt]
  rw [h] at htrue
  exact Bool.false_ne_true htrue

/-- Level of the minimum entry is a lower bound for the start entry's level
and for the level of every listed entry. -/
theorem findMinEntry_level_le (l : List (Prio × Nat)) :
    ∀ best : Prio × Nat,
      (findMinEntry best l).1.1 ≤ best.1.1 ∧
        ∀ e ∈ l, (findMinEntry best l).1.1 ≤ e.1.1 := by
  induction l with
  | nil => intro best; exact ⟨le_refl _, by simp⟩
  | cons e rest ih =>
    intro best
    have hbranch : ((if prioLtB e.1 best.1 then e else best).1.1 ≤ best.1.1) ∧
        ((if prioLtB e.1 best.1 then e else best).1.1 ≤ e.1.1) := by
      cases h : prioLtB e.1 best.1 with
      | true =>
        rw [if_pos rfl]
        exact ⟨prioLtB_level_true h, le_refl _⟩
      | false =>
        rw [if_neg (by simp)]
        exact ⟨le_refl _, prioLtB_level_false h⟩
    obtain ⟨ih1, ih2⟩ := ih (if prioLtB e.1 best.1 then e else best)
    refine ⟨?_, ?_⟩
    · exact le_trans ih1 hbranch.1
    · intro x hx
      rcases List.mem_cons.mp hx with hx | hx
      · subst hx; exact le_trans ih1 hbranch.2
      · exact ih2 x hx

/-- `getE` serves an entry of minimal level: the priority it returns has a
level that is at most the level of any entry in the queue. -/
theorem getE_min_level (s : MessageQueueOut) (e : Prio × Nat) (he : e ∈ s.q)
    (pr : Prio) (m : Nat) (s'' : MessageQueueOut)
    (hget : s.getE = some (pr, m, s'')) : pr.1 ≤ e.1.1 := by
  unfold MessageQueueOut.getE at hget
  cases hq : s.q with
  | nil => rw [hq] at he; simp at he
  | cons e0 rest =>
    rw [hq] at hget he
    simp only [Option.some.injEq, Prod.mk.injEq] at hget
    have hpr : pr = (findMinEntry e0 rest).1 := hget.1.symm
    obtain ⟨h1, h2⟩ := findMinEntry_level_le rest e0
    rcases List.mem_cons.mp he with hx | hx
    · subst hx; rw [hpr]; exact h1
    · rw [hpr]; exact h2 e hx

/-- `put` only appends one entry to the backing queue, with the level and
the node taken from the given priority triple. -/
theorem put_q_append (s : MessageQueueOut) (p : Prio) (m : Nat) :
    ∃ c, (s.put p m).q = s.q ++ [((p.1, c, p.2.2), m)] := by
  by_cases h0 : s.q.isEmpty <;> by_cases h2 : p.1 = 2 <;> by_cases h3 : p.1 = 3 <;>
    simp [MessageQueueOut.put, h0, h2, h3]

/-- C2: the claim says a `get` serving a fairness-managed entry advances that
same level's floor to the served counter.  Evaluating the code: serving the
single level-3 entry, whose counter is 1, leaves `_lo_min` at 0 (because the
source's line 140 reads `elif level == 2:` — a dead duplicate of line 138 —
instead of `elif level == 3:`), while the analogous level-2 `get` does set
`_hi_min` to the served counter 1.  This contradicts the claim for level 3
and documents the level-2 behaviour the claim describes. -/
theorem getE_level3_leaves_lo_min_unchanged :
    ((mqInit.put (3, 0, some 1) 10).getE.map
        (fun r => (r.1, r.2.2.lo_min, r.2.2.hi_min)) = some ((3, 1, some 1), 0, 0)) ∧
    ((mqInit.put (2, 0, some 1) 10).getE.map
        (fun r => (r.1, r.2.2.hi_min)) = some ((2, 1, some 1), 1)) := by decide

/-- C3: concrete violation of round-robin fairness at level 3, caused by the
frozen `_lo_min` floor.  Destination 1 enqueues four low-priority messages
(ids 1..4, counters 1..4); the first two gets serve ids 1 and 2; destination
2 then enqueues two messages, which—because the floor never advanced—receive
counters 1 and 2, below destination 1's remaining counters 3 and 4.  The
next two gets therefore both serve destination 2 while destination 1 still
has its two messages queued, i.e. destination 2 is served twice before the
currently-queued destination 1 is served once. -/
theorem level3_destination_served_twice_while_other_queued :
    (let s4 := ((((mqInit.put (3, 0, some 1) 1).put (3, 0, some 1) 2).put
        (3, 0, some 1) 3).put (3, 0, some 1) 4)
    let p := drainE 2 s4
    let s6 := (p.2.put (3, 0, some 2) 5).put (3, 0, some 2) 6
    let q := drainE 2 s6
    p.1.map (fun e => (e.1.2.2, e.2)) = [(some 1, 1), (some 1, 2)] ∧
      q.1.map (fun e => (e.1.2.2, e.2)) = [(some 2, 5), (some 2, 6)] ∧
      q.2.q = [((3, 3, some 1), 3), ((3, 4, some 1), 4)]) := by decide

/-- C4: Scenario B.  Starting from the empty queue, destination 3 enqueues
three low-priority messages and destination 7 enqueues three low-priority
messages, in any interleaving of the six puts; the six successive gets then
serve the destinations in round-robin order 3, 7, 3, 7, 3, 7. -/
theorem scenarioB_round_robin :
    ∀ order ∈ (boolLists 6).filter (fun l => l.count true == 3),
      ((drainE 6 (scenarioBPuts order mqInit)).1.map (fun e => e.1.2.2)) =
        [some 3, some 7, some 3, some 7, some 3, some 7] := by decide

/-- Witness for `scenarioB_round_robin` at the interleaving in which
destination 3's three puts all precede destination 7's. -/
theorem scenarioB_round_robin_witness :
    ((drainE 6 (scenarioBPuts [true, true, true, false, false, false] mqInit)).1.map
        (fun e => e.1.2.2)) = [some 3, some 7, some 3, some 7, some 3, some 7] :=
  scenarioB_round_robin [true, true, true, false, false, false] (by decide)

/-- C7 counterexample: destination 5 enqueues three low-priority messages
(ids 1, 2, 3; fairness counters 1, 2, 3); the first two are served; then the
barrier message (id 99) of `WaitUntilAllPreviousMessagesHaveBeenHandled` is
enqueued at the lowest priority.  Its fairness counter is 1, below the
still-queued counter 3 of the earlier message 3, so the very next `get`
serves the barrier while message 3 — submitted strictly before the call —
is still queued and unattempted.  This refutes the claim that the barrier
cannot be dequeued and resolved before every earlier-submitted message has
been attempted. -/
theorem quiescence_barrier_overtakes_earlier_low_message :
    (let s := (((mqInit.put (3, 0, some 5) 1).put (3, 0, some 5) 2).put
        (3, 0, some 5) 3)
    let p := drainE 2 s
    let s' := p.2.put LowestPriority 99
    p.1.map (fun e => e.2) = [1, 2] ∧
      s'.getE.map (fun r => (r.1, r.2.1)) = some ((3, 1, none), 99) ∧
      s'.getE.map (fun r => r.2.2.q) = some [((3, 3, some 5), 3)]) := by decide

/-- C7 amended: the barrier message of
`WaitUntilAllPreviousMessagesHaveBeenHandled`, enqueued at the lowest
priority level 3, cannot be served while any entry of a strictly more
urgent level (level < 3, i.e. expedited or high) is queued: a `get` from the
queue after the barrier has been put serves an entry of level < 3 whenever
one is present.  (Within level 3 itself the barrier can overtake earlier
messages with larger fairness counters, as the counterexample shows.) -/
theorem quiescence_barrier_not_before_more_urgent_levels
    (s : MessageQueueOut) (mid : Nat) (e : Prio × Nat)
    (he : e ∈ s.q) (hlevel : e.1.1 < 3) (pr : Prio) (m : Nat)
    (s'' : MessageQueueOut)
    (hget : (s.put LowestPriority mid).getE = some (pr, m, s'')) : pr.1 < 3 := by
  obtain ⟨c, hq⟩ := put_q_append s LowestPriority mid
  have he' : e ∈ (s.put LowestPriority mid).q := by
    rw [hq]; exact List.mem_append_left _ he
  exact lt_of_le_of_lt (getE_min_level _ e he' pr m s'' hget) hlevel

/-!  ## `MessageStatsString` (driver.py lines 48-89) and claim C10 -/

/-- A resolved-transaction history entry as `MessageStatsString` reads it:
`m.node`, `m.can`, `m.state`, `m.WasAborted()`, `m.end`, `m.start`.  The
entry type `zmessage.Message` is not under `src/`; only the fields the
renderer touches are modelled, with the state name abstracted to an id,
`WasAborted()` as a stored flag and `m.end` as an `Option` (`none` mirrors
Python's `None`; an exact `0.0` end is also falsy in `if m.end:`, which the
`endO = some 0` case below mirrors). -/
structure HMessage where
  node : Nat
  can : Nat
  state : Nat
  start : ℚ
  endO : Option ℚ
  wasAborted : Bool
deriving DecidableEq, Repr

/-- Default-0 lookup into a `collections.Counter` with `Nat` keys. -/
def lookupN : List (Nat × Nat) → Nat → Nat
  | [], _ => 0
  | (k', v') :: rest, k => if k = k' then v' else lookupN rest k

/-- `counter[k] += d` on a `collections.Counter` with `Nat` keys. -/
def bumpN (l : List (Nat × Nat)) (k : Nat) (d : Nat) : List (Nat × Nat) :=
  match l with
  | [] => [(k, d)]
  | (k', v') :: rest => if k' = k then (k, v' + d) :: rest else (k', v') :: bumpN rest k d

/-- Default-0 lookup into a duration counter (`Int`-valued). -/
def lookupNZ : List (Nat × Int) → Nat → Int
  | [], _ => 0
  | (k', v') :: rest, k => if k = k' then v' else lookupNZ rest k

/-- `counter[k] += d` on a duration counter. -/
def bumpNZ (l : List (Nat × Int)) (k : Nat) (d : Int) : List (Nat × Int) :=
  match l with
  | [] => [(k, d)]
  | (k', v') :: rest => if k' = k then (k, v' + d) :: rest else (k', v') :: bumpNZ rest k d

/-- Python `int(q)`: truncation toward zero. -/
def pyInt (q : ℚ) : Int := if 0 ≤ q then ⌊q⌋ else -⌊-q⌋

/-- Python integer floor division `a // b`, which raises `ZeroDivisionError`
when the divisor is zero; embedded as `Except`. -/
def pyFloorDiv (a : Int) (b : Nat) : Except String Int :=
  if b = 0 then .error "ZeroDivisionError" else .ok (Int.fdiv a b)

/-- Insert into a sorted list (ascending), for `sorted(...)`. -/
def insSorted (x : Nat) : List Nat → List Nat
  | [] => [x]
  | y :: rest => if x ≤ y then x :: y :: rest else y :: insSorted x rest

/-- `sorted(keys)`: ascending insertion sort. -/
def sortN (l : List Nat) : List Nat := l.foldr insSorted []

/-- The accumulators built by the `for m in mm:` loop of
`MessageStatsString` (lines 62-75). -/
structure StatsAcc where
  with_can : Nat := 0
  total_can : Nat := 0
  by_node_cnt : List (Nat × Nat) := []
  by_node_can : List (Nat × Nat) := []
  by_node_dur : List (Nat × Int) := []
  by_node_bad : List (Nat × Nat) := []
  by_state : List (Nat × Nat) := []
  sum_duration : Int := 0
deriving DecidableEq, Repr

/-- One iteration of the loop body (lines 62-75). -/
def statsStep (acc : StatsAcc) (m : HMessage) : StatsAcc :=
  let node := m.node
  let acc :=
    if m.can > 0 then
      { acc with with_can := acc.with_can + 1, total_can := acc.total_can + m.can,
                 by_node_can := bumpN acc.by_node_can node 1 }
    else acc
  let acc := { acc with by_state := bumpN acc.by_state m.state 1 }
  let acc := { acc with by_node_cnt := bumpN acc.by_node_cnt node 1 }
  let acc := if m.wasAborted then
      { acc with by_node_bad := bumpN acc.by_node_bad node 1 }
    else acc
  match m.endO with
  | some e =>
    if e = 0 then acc
    else
      let duration := pyInt (1000 * (e - m.start))
      { acc with by_node_dur := bumpNZ acc.by_node_dur node duration,
                 sum_duration := acc.sum_duration + duration }
  | none => acc

/-- The numeric content of the rendered statistics: the header counts and
average, the by-state table and the per-node table, in their printed order;
the format strings themselves carry no further computation. -/
structure MessageStats where
  processed : Nat
  with_can : Nat
  total_can : Nat
  avg_time : Int
  by_state : List (Nat × Nat)
  node_rows : List (Nat × Nat × Nat × Int × Nat)
deriving DecidableEq, Repr

/-- The per-node table (lines 85-88): one row per sorted key of
`by_node_cnt`, with the `by_node_dur[n] // by_node_cnt[n]` division. -/
def nodeRows (acc : StatsAcc) : List Nat → Except String (List (Nat × Nat × Nat × Int × Nat))
  | [] => .ok []
  | n :: rest =>
    match pyFloorDiv (lookupNZ acc.by_node_dur n) (lookupN acc.by_node_cnt n) with
    | .error e => .error e
    | .ok d =>
      match nodeRows acc rest with
      | .error e => .error e
      | .ok rows =>
        .ok ((n, lookupN acc.by_node_cnt n, lookupN acc.by_node_can n, d,
          lookupN acc.by_node_bad n) :: rows)

/-- Lines 76-89: the header line divides `sum_duration // count` before
anything is emitted, then the by-state table and the per-node table. -/
def statsOfAcc (count : Nat) (acc : StatsAcc) : Except String MessageStats :=
  match pyFloorDiv acc.sum_duration count with
  | .error e => .error e
  | .ok avg =>
    match nodeRows acc (sortN (acc.by_node_cnt.map Prod.fst)) with
    | .error e => .error e
    | .ok rows =>
      .ok { processed := count, with_can := acc.with_can, total_can := acc.total_can,
            avg_time := avg,
            by_state := (sortN (acc.by_state.map Prod.fst)).map
              (fun n => (n, lookupN acc.by_state n)),
            node_rows := rows }

/-- `MessageStatsString` (lines 48-89): `cutoff` is the literal 0, so the
whole history is processed. -/
def MessageStatsString (history : List HMessage) : Except String MessageStats :=
  let cutoff : Nat := 0
  let mm := if cutoff > 0 then history.drop (history.length - cutoff) else history
  statsOfAcc mm.length (mm.foldl statsStep {})

/-- `Driver.__init__` starts with `self._history = []` (line 180), and
`Driver.__str__` (lines 212-216) renders `MessageStatsString(self._history)`. -/
def Driver.initialHistory : List HMessage := []

/-- `statsStep` changes `by_node_cnt` exactly by one `+= 1` bump. -/
theorem statsStep_by_node_cnt (acc : StatsAcc) (m : HMessage) :
    (statsStep acc m).by_node_cnt = bumpN acc.by_node_cnt m.node 1 := by
  unfold statsStep
  repeat' split
  all_goals rfl

/-- Bumping by a positive amount preserves positivity of all counts. -/
theorem bumpN_pos (l : List (Nat × Nat)) (k d : Nat) (hd : 1 ≤ d)
    (hl : ∀ p ∈ l, 1 ≤ p.2) : ∀ p ∈ bumpN l k d, 1 ≤ p.2 := by
  induction l with
  | nil => intro p hp; simp only [bumpN, List.mem_singleton] at hp; subst hp; exact hd
  | cons q rest ih =>
    intro p hp
    obtain ⟨k', v'⟩ := q
    simp only [bumpN] at hp
    split at hp
    · rcases List.mem_cons.mp hp with h | h
      · subst h
        have := hl (k', v') (List.mem_cons_self _ _)
        simp only at this ⊢
        omega
      · exact hl p (List.mem_cons_of_mem _ h)
    · rcases List.mem_cons.mp hp with h | h
      · subst h; exact hl (k', v') (List.mem_cons_self _ _)
      · exact ih (fun q hq => hl q (List.mem_cons_of_mem _ hq)) p h

/-- Every node counted by the loop has a positive count. -/
theorem foldl_by_node_cnt_pos (history : List HMessage) :
    ∀ acc : StatsAcc, (∀ p ∈ acc.by_node_cnt, 1 ≤ p.2) →
      ∀ p ∈ (history.foldl statsStep acc).by_node_cnt, 1 ≤ p.2 := by
  induction history with
  | nil => intro acc hacc; simpa using hacc
  | cons m rest ih =>
    intro acc hacc
    simp only [List.foldl_cons]
    apply ih
    rw [statsStep_by_node_cnt]
    exact bumpN_pos _ _ _ (le_refl 1) hacc

/-- A key present in a positive counter looks up to a positive value. -/
theorem lookupN_pos (l : List (Nat × Nat)) (hl : ∀ p ∈ l, 1 ≤ p.2) (k : Nat)
    (hk : k ∈ l.map Prod.fst) : 1 ≤ lookupN l k := by
  induction l with
  | nil => simp at hk
  | cons q rest ih =>
    obtain ⟨k', v'⟩ := q
    simp only [lookupN]
    by_cases hkk : k = k'
    · rw [if_pos hkk]
      exact hl (k', v') (List.mem_cons_self _ _)
    · rw [if_neg hkk]
      apply ih (fun p hp => hl p (List.mem_cons_of_mem _ hp))
      rcases List.mem_map.mp hk with ⟨p, hp, hfst⟩
      rcases List.mem_cons.mp hp with h | h
      · exact absurd (by rw [← hfst, h]) hkk
      · exact List.mem_map.mpr ⟨p, h, hfst⟩

/-- Membership through sorted insertion. -/
theorem mem_insSorted (x a : Nat) (l : List Nat) :
    x ∈ insSorted a l → x = a ∨ x ∈ l := by
  induction l with
  | nil => intro h; simp only [insSorted, List.mem_singleton] at h; exact Or.inl h
  | cons y rest ih =>
    intro h
    simp only [insSorted] at h
    split at h
    · rcases List.mem_cons.mp h with h | h
      · exact Or.inl h
      · exact Or.inr h
    · rcases List.mem_cons.mp h with h | h
      · exact Or.inr (by simp [h])
      · rcases ih h with h | h
        · exact Or.inl h
        · exact Or.inr (List.mem_cons_of_mem _ h)

/-- Membership through the insertion sort. -/
theorem mem_sortN (x : Nat) (l : List Nat) : x ∈ sortN l → x ∈ l := by
  induction l with
  | nil => simp [sortN]
  | cons y rest ih =>
    intro h
    rcases mem_insSorted x y (sortN rest) h with h | h
    · simp [h]
    · exact List.mem_cons_of_mem _ (ih h)

/-- The per-node table renders without error when every listed node has a
positive message count. -/
theorem nodeRows_ok (acc : StatsAcc) (ns : List Nat)
    (h : ∀ n ∈ ns, 1 ≤ lookupN acc.by_node_cnt n) :
    ∃ rows, nodeRows acc ns = .ok rows := by
  induction ns with
  | nil => exact ⟨[], rfl⟩
  | cons n rest ih =>
    have hn : lookupN acc.by_node_cnt n ≠ 0 := by
      have := h n (List.mem_cons_self _ _); omega
    obtain ⟨rows, hrows⟩ := ih (fun x hx => h x (List.mem_cons_of_mem _ hx))
    refine ⟨(n, lookupN acc.by_node_cnt n, lookupN acc.by_node_can n,
        Int.fdiv (lookupNZ acc.by_node_dur n) (lookupN acc.by_node_cnt n),
        lookupN acc.by_node_bad n) :: rows, ?_⟩
    have hdiv : pyFloorDiv (lookupNZ acc.by_node_dur n) (lookupN acc.by_node_cnt n)
        = .ok (Int.fdiv (lookupNZ acc.by_node_dur n) (lookupN acc.by_node_cnt n)) := by
      unfold pyFloorDiv
      rw [if_neg hn]
    simp only [nodeRows, hdiv, hrows]

/-- C10: `MessageStatsString` is total exactly on non-empty histories.  On
the empty history — in particular `Driver.__str__`'s rendering before any
message has been recorded, since `Driver.__init__` sets `_history = []` —
the header's `sum_duration // count` divides by the zero message count and
the rendering fails with `ZeroDivisionError`; on any non-empty history the
rendering succeeds (every per-node division has a positive divisor). -/
theorem MessageStatsString_total_iff_nonempty :
    MessageStatsString Driver.initialHistory = .error "ZeroDivisionError" ∧
    ∀ history : List HMessage, history ≠ [] →
      ∃ st, MessageStatsString history = .ok st := by
  constructor
  · rfl
  · intro history hne
    have hred : MessageStatsString history =
        statsOfAcc history.length (history.foldl statsStep {}) := rfl
    rw [hred]
    unfold statsOfAcc
    have hcnt : history.length ≠ 0 := by
      simpa [List.length_eq_zero] using hne
    have hpos : ∀ p ∈ (history.foldl statsStep {} : StatsAcc).by_node_cnt, 1 ≤ p.2 :=
      foldl_by_node_cnt_pos history {} (by simp)
    obtain ⟨rows, hrows⟩ := nodeRows_ok (history.foldl statsStep {})
      (sortN ((history.foldl statsStep {} : StatsAcc).by_node_cnt.map Prod.fst))
      (fun n hn =>
        lookupN_pos _ hpos n (by
          have := mem_sortN n _ hn
          exact this))
    simp only [pyFloorDiv, hcnt, if_false, hrows]
    exact ⟨_, rfl⟩

/-- Witness for `MessageStatsString_total_iff_nonempty`: the singleton
history consisting of one unresolved message for node 5 renders
successfully. -/
theorem MessageStatsString_total_iff_nonempty_witness :
    ∃ st, MessageStatsString [⟨5, 0, 0, 0, none, false⟩] = .ok st :=
  MessageStatsString_total_iff_nonempty.2 [⟨5, 0, 0, 0, none, false⟩] (by decide)

/-- Witness for `quiescence_barrier_not_before_more_urgent_levels`: with one
high-priority (level-2) entry queued, the `get` following the barrier put
serves that level-2 entry, whose level is below 3. -/
theorem quiescence_barrier_not_before_more_urgent_levels_witness :
    ((2 : Nat), 1, (some 4 : Node)).1 < 3 :=
  quiescence_barrier_not_before_more_urgent_levels
    (mqInit.put (2, 0, some 4) 7) 99 ((2, 1, some 4), 7) (by decide) (by decide)
    (2, 1, some 4) 7
    { q := [((3, 1, none), 99)], lo_counts := [(none, 1)],
      hi_counts := [(some 4, 1)], lo_min := 0, hi_min := 1, counter := 0,
      per_node_size := [(some 4, 0), (none, 1)] }
    (by decide)

/-!  ## Receive framing (lines 349-374), supervision (lines 304-325), claim C5 -/

/-- Modelled from the spec: `zwave.SOF` — the `zwave` module is not under
`src/`; §6 fixes the frame-start marker as 0x01. -/
def z.SOF : Nat := 0x01

/-- Modelled from the spec: acknowledge byte 0x06 (§6). -/
def z.ACK : Nat := 0x06

/-- Modelled from the spec: negative-acknowledge byte 0x15 (§6). -/
def z.NAK : Nat := 0x15

/-- Modelled from the spec: collision byte 0x18 (§6). -/
def z.CAN : Nat := 0x18

/-- Modelled from the spec: the one-byte acknowledge wire message
`zmessage.RAW_MESSAGE_ACK` (not under `src/`). -/
def zmessage.RAW_MESSAGE_ACK : List Nat := [z.ACK]

/-- Modelled from the spec: the one-byte negative-acknowledge wire message
`zmessage.RAW_MESSAGE_NAK` (not under `src/`). -/
def zmessage.RAW_MESSAGE_NAK : List Nat := [z.NAK]

/-- Modelled from the spec: `zmessage.ExtracRawMessage` is not under
`src/`.  Per §4.1 a frame beginning with the start marker is incomplete
(`none`) until its declared length plus checksum bytes are present; the
declared length is the byte after the marker, and a complete frame is the
marker, the length byte and that many further bytes.  The driver only calls
this on buffers that begin with the start marker. -/
def zmessage.ExtracRawMessage (buf : List Nat) : Option (List Nat) :=
  match buf with
  | [] => none
  | _ :: [] => none
  | _ :: len :: _ => if 2 + len ≤ buf.length then some (buf.take (2 + len)) else none

/-- The receiving thread's loop-local state: the accumulating byte buffer
and `last_sof_arrival` (lines 350-351). -/
structure RecvState where
  buf : List Nat
  last_sof_arrival : Option ℚ
deriving DecidableEq, Repr

/-- The fault raised by the receive loop body: the `assert False` of line
370, reached when a start-marked frame is still incomplete more than 2
seconds after its start byte arrived. -/
inductive RecvFatal
  | incompleteFrameAfterDeadline (buf : List Nat)
deriving DecidableEq, Repr

/-- Loop-local state at thread start: empty buffer, no recorded start. -/
def recvInit : RecvState := ⟨[], none⟩

/-- One iteration of `_DriverReceivingThread`'s `while` body (lines
352-374), up to handing a complete message to the in-flight machine:
reads one byte (`none` on a 0.2 s read timeout), appends it to the buffer,
and either keeps waiting for more bytes of a start-marked frame, or yields
the extracted message with the remaining buffer, or — when the frame begun
with the start marker is still incomplete and the current byte arrives more
than 2 seconds after `last_sof_arrival` (line 366) — fails the thread body
via the `assert False` of line 370, embedded as the `Except` error. -/
def DriverReceivingStep (st : RecvState) (r : Option Nat) (ts : ℚ) :
    Except RecvFatal (RecvState × Option (List Nat)) :=
  match r with
  | none => .ok (st, none)
  | some b =>
    let buf := st.buf ++ [b]
    let m := buf.take 1
    if buf.headD 0 = z.SOF then
      let last := st.last_sof_arrival.getD ts
      match zmessage.ExtracRawMessage buf with
      | none =>
        if ts - last > 2 then .error (.incompleteFrameAfterDeadline buf)
        else .ok ({ buf := buf, last_sof_arrival := some last }, none)
      | some m2 => .ok ({ buf := buf.drop m2.length, last_sof_arrival := none }, some m2)
    else
      .ok ({ buf := buf.drop m.length, last_sof_arrival := none }, some m)

/-- What `_run_child_thread`'s supervision loop does next. -/
inductive SupervisionOutcome where
  | exitLoop
  | retryAfter (sleep : ℚ) (nextDelay : ℚ)
deriving DecidableEq, Repr

/-- The starting backoff `delay = .5` of `_run_child_thread` (line 308). -/
def initialRetryDelay : ℚ := 1 / 2

/-- One turn of `_run_child_thread`'s supervision loop (lines 311-320),
given the `_terminate` flag as re-checked by the `while`, the current
backoff delay, and the outcome of running the loop body `fn()`: a normal
return breaks out of the loop; an exception — any `Exception`, which
includes the `AssertionError` raised by the receive thread's
`assert False` — is logged, slept through for `delay` seconds, the delay
doubles while below 60, and the loop runs `fn()` again unless termination
has been requested. -/
def runChildThreadStep {e : Type} (terminate : Bool) (delay : ℚ)
    (result : Except e Unit) : SupervisionOutcome :=
  match result with
  | .ok _ => .exitLoop
  | .error _ =>
    if terminate then .exitLoop
    else .retryAfter delay (if delay < 60 then delay * 2 else delay)

/-- C5 counterexample: the claim states that the 2-second incomplete-frame
condition is surfaced as a fatal condition that is NOT absorbed by the
loop-supervision retry mechanism as an ordinary recoverable fault.
Evaluating the code at a concrete input: from the reachable receive state
holding the incomplete start-marked buffer whose start byte arrived at time
0, the byte read at time 3 raises the assertion, and `_run_child_thread`
(with termination not requested) responds to that exception exactly as it
responds to a generic fault: it sleeps the current 0.5 s backoff, doubles
it to 1, and retries the loop body — the fault is absorbed, refuting the
claim. -/
theorem receive_deadline_absorbed_by_supervision :
    DriverReceivingStep recvInit (some z.SOF) 0 = .ok (⟨[z.SOF], some 0⟩, none) ∧
    DriverReceivingStep ⟨[z.SOF], some 0⟩ (some 5) 3 =
      .error (RecvFatal.incompleteFrameAfterDeadline [z.SOF, 5]) ∧
    runChildThreadStep false initialRetryDelay
        (Except.error (RecvFatal.incompleteFrameAfterDeadline [z.SOF, 5])) =
      .retryAfter initialRetryDelay 1 ∧
    @runChildThreadStep Unit false initialRetryDelay (Except.error ()) =
      .retryAfter initialRetryDelay 1 := by
  refine ⟨?_, ?_, ?_, ?_⟩
  · norm_num [DriverReceivingStep, recvInit, zmessage.ExtracRawMessage, z.SOF]
  · norm_num [DriverReceivingStep, zmessage.ExtracRawMessage, z.SOF]
  · norm_num [runChildThreadStep, initialRetryDelay]
  · norm_num [runChildThreadStep, initialRetryDelay]

/-- C5 amended: whenever a start-marked buffer is still incomplete and the
current byte arrives more than 2 seconds after the recorded
start-of-frame arrival, the receive step does surface the condition loudly
by raising (the `assert False` embedded as an `Except` error), but the
supervision wrapper — as long as termination has not been requested —
absorbs it as it would any other exception: it retries the loop after
sleeping the current backoff delay, doubling the delay while it is below
the 60-second cap. -/
theorem receive_deadline_raises_and_is_retried
    (st : RecvState) (b : Nat) (ts last delay : ℚ)
    (hlast : st.last_sof_arrival = some last)
    (hsof : (st.buf ++ [b]).headD 0 = z.SOF)
    (hinc : zmessage.ExtracRawMessage (st.buf ++ [b]) = none)
    (hts : ts - last > 2) :
    DriverReceivingStep st (some b) ts =
      .error (RecvFatal.incompleteFrameAfterDeadline (st.buf ++ [b])) ∧
    runChildThreadStep false delay
        (Except.error (RecvFatal.incompleteFrameAfterDeadline (st.buf ++ [b]))) =
      .retryAfter delay (if delay < 60 then delay * 2 else delay) := by
  constructor
  · simp only [DriverReceivingStep]
    rw [if_pos hsof]
    simp only [hlast, Option.getD_some, hinc]
    rw [if_pos hts]
  · rfl

/-- Witness for `receive_deadline_raises_and_is_retried` at the concrete
state of the counterexample: start byte at time 0, next byte at time 3,
current backoff 0.5 s. -/
theorem receive_deadline_raises_and_is_retried_witness :
    DriverReceivingStep ⟨[z.SOF], some 0⟩ (some 5) 3 =
      .error (RecvFatal.incompleteFrameAfterDeadline ([z.SOF] ++ [5])) ∧
    runChildThreadStep false initialRetryDelay
        (Except.error (RecvFatal.incompleteFrameAfterDeadline ([z.SOF] ++ [5]))) =
      .retryAfter initialRetryDelay
        (if initialRetryDelay < 60 then initialRetryDelay * 2 else initialRetryDelay) :=
  receive_deadline_raises_and_is_retried ⟨[z.SOF], some 0⟩ 5 3 0 initialRetryDelay
    rfl (by decide) (by decide) (by norm_num)

/-!  ## Transmit/receive loops and the in-flight message: claims C1, C8, C9 -/

/-- Modelled from the spec: `zmessage.Message` is not under `src/`.  Per §3
a message is an immutable request: destination id or none, priority (held
in the queue embedding above), payload bytes, and an optional expected-reply
predicate (abstracted to an optional byte the reply frame must contain,
with `expectsReply` false meaning the message resolves on the acknowledge
alone); `mid` is an identity used by the record census below. -/
structure Message where
  node : Node
  payload : List Nat
  expectsReply : Bool
  expect : Option Nat
  mid : Nat
deriving DecidableEq, Repr

/-- The in-flight protocol phase (spec §4.2; `Sent` and `AwaitingAck` are
collapsed, the driver never distinguishing them observably). -/
inductive IFPhase
  | awaitingAck
  | awaitingResponse
deriving DecidableEq, Repr

/-- The single in-flight record (spec §3): message, phase, retry count, and
the bytes of this record's original transmission (`none` until the transmit
loop's `_SendRaw`), carried to state claim C8. -/
structure IFRec where
  msg : Message
  phase : IFPhase
  retries : Nat
  firstSent : Option (List Nat)
deriving DecidableEq, Repr

/-- Modelled from the spec: `zmessage.InflightMessage` is not under `src/`.
The record exists only between dequeue and resolution (§3), so the machine
state is the optional record. -/
abbrev InflightMessage := Option IFRec

/-- `GetMessage` (used by the driver at lines 214, 222, 278 and 383):
the current message, or `None` when no record is active. -/
def InflightMessage.GetMessage (s : InflightMessage) : Option Message :=
  s.map IFRec.msg

/-- Modelled from the spec: the fixed maximum retry count per message
(§4.2); its concrete value is not fixed by the spec. -/
def MESSAGE_MAX_RETRIES : Nat := 3

/-- Modelled from the spec: `StartMessage` transitions to an active record
only if currently idle and returns whether it accepted, "enforcing the
single-outstanding invariant at the boundary between loops" (§4.2). -/
def InflightMessage.StartMessage (s : InflightMessage) (m : Message) :
    Bool × InflightMessage :=
  match s with
  | none => (true, some ⟨m, .awaitingAck, 0, none⟩)
  | some r => (false, some r)

/-- The receive loop's reaction codes `zmessage.DO_ACK`, `DO_RETRY` and
`DO_PROPAGATE` tested at lines 378-386; `DO_NOTHING` stands for any value
matching none of the three tested constants. -/
inductive NextAction
  | DO_ACK
  | DO_RETRY
  | DO_PROPAGATE
  | DO_NOTHING
deriving DecidableEq, Repr

/-- Modelled from the spec: the message's optional expected-reply predicate
applied to a data frame, abstracted to containment of the expected byte. -/
def matchesReply (m : Message) (f : List Nat) : Bool :=
  match m.expect with
  | none => false
  | some c => f.contains c

/-- Modelled from the spec: `NextActionForReceivedMessage` (§4.2).  An
acknowledge byte moves awaiting-ack to awaiting-response, or resolves the
record successfully at once when no further reply is expected; a
negative-acknowledge or collision byte returns retry with the retry counter
incremented, unless retries are exhausted (resolving failed); a data frame
satisfying the expected-reply predicate returns propagate and resolves
successfully; any other data frame returns propagate without mutating the
record.  A resolved record is destroyed (the state becomes `none`). -/
def InflightMessage.NextActionForReceivedMessage (s : InflightMessage)
    (m : List Nat) : NextAction × InflightMessage :=
  match s with
  | none =>
    if m = [z.ACK] ∨ m = [z.NAK] ∨ m = [z.CAN] then (.DO_NOTHING, none)
    else (.DO_PROPAGATE, none)
  | some r =>
    if m = [z.ACK] then
      if r.phase = .awaitingAck then
        if r.msg.expectsReply then (.DO_NOTHING, some { r with phase := .awaitingResponse })
        else (.DO_NOTHING, none)
      else (.DO_NOTHING, some r)
    else if m = [z.NAK] ∨ m = [z.CAN] then
      if r.retries < MESSAGE_MAX_RETRIES then
        (.DO_RETRY, some { r with retries := r.retries + 1 })
      else (.DO_NOTHING, none)
    else
      if r.phase = .awaitingResponse ∧ matchesReply r.msg m then (.DO_PROPAGATE, none)
      else (.DO_PROPAGATE, some r)

/-- Phase of `_DriverSendingThread` (lines 327-337) within one loop pass:
blocked in the queue `get`, holding a dequeued message about to call
`StartMessage`, accepted and about to `_SendRaw`, or blocked in
`WaitForMessageCompletion`. -/
inductive TxPhase
  | atGet
  | starting (m : Message)
  | sending (m : Message)
  | waiting (m : Message)
deriving DecidableEq, Repr

/-- Phase of `_DriverReceivingThread`'s frame handling (lines 375-386):
between computing `next_action` for a received message and executing the
corresponding write-back there is an interleaving point — the source's own
comment at lines 381-382 calls it a "small race". -/
inductive RxPhase
  | reading
  | decided (a : NextAction) (frame : List Nat)
deriving DecidableEq, Repr

/-- Joint state of the transmit and receive loops around the single
in-flight message.  `wire` logs every `_SendRaw` as (payload, comment);
`in_queue` is the inbound queue fed at line 386.  `records` is a census of
the active in-flight records, stated by claim C1: a message id is appended
exactly when `StartMessage` accepts (a record is created) and the census
empties when the record resolves. -/
structure DrvState where
  out_queue : List Message
  inflight : InflightMessage
  tx : TxPhase
  rx : RxPhase
  wire : List (List Nat × String)
  in_queue : List (List Nat)
  records : List Nat
deriving DecidableEq, Repr

/-- Labels of the driver transition system. -/
inductive DrvLabel
  | submit (m : Message)
  | txDequeue
  | txStart
  | txSend
  | txComplete
  | rxRead (frame : List Nat)
  | rxExec
  | timeoutResolve
deriving DecidableEq, Repr

/-- Small-step semantics of the driver's loops.  `SendMessage` (line 238)
may submit any message at any time; the outbound queue is abstracted to
arrival order here (its priority behaviour is the separate
`MessageQueueOut` embedding above, and claim C1 quantifies over every
dequeue order anyway since submissions are arbitrary).  The transmit loop
follows lines 332-337: dequeue, `StartMessage`, `_SendRaw` on acceptance,
then `WaitForMessageCompletion`, and only then the next dequeue; on
rejection it loops straight back to the dequeue.  `rxRead` consults the
state machine exactly as line 375 does and `rxExec` performs the
write-back of lines 378-386 — `rxExecRetry` requires an active record, as
dereferencing `GetMessage().payload` (line 383) does.  `timeoutResolve` is
the completion timeout of `WaitForMessageCompletion` (§4.2), resolving the
record while the transmit loop is blocked in it. -/
inductive DrvStep : DrvState → DrvLabel → DrvState → Prop
  | submit (s : DrvState) (m : Message) :
      DrvStep s (.submit m) { s with out_queue := s.out_queue ++ [m] }
  | txDequeue (s : DrvState) (m : Message) (rest : List Message)
      (hq : s.out_queue = m :: rest) (htx : s.tx = .atGet) :
      DrvStep s .txDequeue { s with out_queue := rest, tx := .starting m }
  | txStartOk (s : DrvState) (m : Message) (if1 : InflightMessage)
      (htx : s.tx = .starting m)
      (hstart : s.inflight.StartMessage m = (true, if1)) :
      DrvStep s .txStart
        { s with inflight := if1, tx := .sending m,
                 records := s.records ++ [m.mid] }
  | txStartFail (s : DrvState) (m : Message) (if1 : InflightMessage)
      (htx : s.tx = .starting m)
      (hstart : s.inflight.StartMessage m = (false, if1)) :
      DrvStep s .txStart { s with inflight := if1, tx := .atGet }
  | txSend (s : DrvState) (m : Message) (htx : s.tx = .sending m) :
      DrvStep s .txSend
        { s with wire := s.wire ++ [(m.payload, "")],
                 inflight := s.inflight.map (fun r => { r with firstSent := some m.payload }),
                 tx := .waiting m }
  | txComplete (s : DrvState) (m : Message) (htx : s.tx = .waiting m)
      (hres : s.inflight = none) :
      DrvStep s .txComplete { s with tx := .atGet }
  | timeoutResolve (s : DrvState) (m : Message) (r : IFRec)
      (htx : s.tx = .waiting m) (hin : s.inflight = some r) :
      DrvStep s .timeoutResolve { s with inflight := none, records := [] }
  | rxRead (s : DrvState) (frame : List Nat) (a : NextAction) (if1 : InflightMessage)
      (hrx : s.rx = .reading)
      (hra : s.inflight.NextActionForReceivedMessage frame = (a, if1)) :
      DrvStep s (.rxRead frame)
        { s with rx := .decided a frame, inflight := if1,
                 records := if if1.isNone then [] else s.records }
  | rxExecAck (s : DrvState) (frame : List Nat)
      (hrx : s.rx = .decided .DO_ACK frame) :
      DrvStep s .rxExec
        { s with wire := s.wire ++ [(zmessage.RAW_MESSAGE_ACK, "")], rx := .reading }
  | rxExecRetry (s : DrvState) (frame : List Nat) (r : IFRec)
      (hrx : s.rx = .decided .DO_RETRY frame) (hin : s.inflight = some r) :
      DrvStep s .rxExec
        { s with wire := s.wire ++ [(r.msg.payload, "re-try")], rx := .reading }
  | rxExecPropagate (s : DrvState) (frame : List Nat)
      (hrx : s.rx = .decided .DO_PROPAGATE frame) :
      DrvStep s .rxExec
        { s with wire := s.wire ++ [(zmessage.RAW_MESSAGE_ACK, "")],
                 in_queue := s.in_queue ++ [frame], rx := .reading }
  | rxExecNothing (s : DrvState) (frame : List Nat)
      (hrx : s.rx = .decided .DO_NOTHING frame) :
      DrvStep s .rxExec { s with rx := .reading }

/-- Initial state: empty queues, no in-flight record, both loops at the
top of their bodies. -/
def DrvState.init : DrvState := ⟨[], none, .atGet, .reading, [], [], []⟩

/-- Reachability from the initial state. -/
inductive DrvReachable : DrvState → Prop
  | init : DrvReachable DrvState.init
  | step {s : DrvState} {l : DrvLabel} {t : DrvState} :
      DrvReachable s → DrvStep s l t → DrvReachable t

/-- When the state machine leaves a record active, it is the record that
was already active, with the message and the original-transmission bytes
untouched (only phase or retry count change). -/
theorem nextAction_some (s : InflightMessage) (f : List Nat) (a : NextAction)
    (r' : IFRec)
    (h : s.NextActionForReceivedMessage f = (a, some r')) :
    ∃ r : IFRec, s = some r ∧ r'.msg = r.msg ∧ r'.firstSent = r.firstSent := by
  cases s with
  | none =>
    simp only [InflightMessage.NextActionForReceivedMessage] at h
    by_cases h1 : f = [z.ACK] ∨ f = [z.NAK] ∨ f = [z.CAN]
    · rw [if_pos h1] at h
      exact Option.noConfusion (congrArg Prod.snd h)
    · rw [if_neg h1] at h
      exact Option.noConfusion (congrArg Prod.snd h)
  | some r =>
    refine ⟨r, rfl, ?_⟩
    simp only [InflightMessage.NextActionForReceivedMessage] at h
    by_cases h1 : f = [z.ACK]
    · rw [if_pos h1] at h
      by_cases h2 : r.phase = IFPhase.awaitingAck
      · rw [if_pos h2] at h
        by_cases h3 : r.msg.expectsReply = true
        · rw [if_pos h3] at h
          obtain rfl := Option.some.inj (congrArg Prod.snd h)
          exact ⟨rfl, rfl⟩
        · rw [if_neg h3] at h
          exact Option.noConfusion (congrArg Prod.snd h)
      · rw [if_neg h2] at h
        obtain rfl := Option.some.inj (congrArg Prod.snd h)
        exact ⟨rfl, rfl⟩
    · rw [if_neg h1] at h
      by_cases h4 : f = [z.NAK] ∨ f = [z.CAN]
      · rw [if_pos h4] at h
        by_cases h5 : r.retries < MESSAGE_MAX_RETRIES
        · rw [if_pos h5] at h
          obtain rfl := Option.some.inj (congrArg Prod.snd h)
          exact ⟨rfl, rfl⟩
        · rw [if_neg h5] at h
          exact Option.noConfusion (congrArg Prod.snd h)
      · rw [if_neg h4] at h
        by_cases h6 : r.phase = IFPhase.awaitingResponse ∧ matchesReply r.msg f = true
        · rw [if_pos h6] at h
          exact Option.noConfusion (congrArg Prod.snd h)
        · rw [if_neg h6] at h
          obtain rfl := Option.some.inj (congrArg Prod.snd h)
          exact ⟨rfl, rfl⟩

/-- A retry decision always leaves an active record behind. -/
theorem nextAction_retry_some (s : InflightMessage) (f : List Nat)
    (if1 : InflightMessage)
    (h : s.NextActionForReceivedMessage f = (.DO_RETRY, if1)) :
    if1.isSome := by
  cases s with
  | none =>
    simp only [InflightMessage.NextActionForReceivedMessage] at h
    by_cases h1 : f = [z.ACK] ∨ f = [z.NAK] ∨ f = [z.CAN]
    · rw [if_pos h1] at h
      exact absurd (congrArg Prod.fst h).symm (by simp)
    · rw [if_neg h1] at h
      exact absurd (congrArg Prod.fst h).symm (by simp)
  | some r =>
    simp only [InflightMessage.NextActionForReceivedMessage] at h
    by_cases h1 : f = [z.ACK]
    · rw [if_pos h1] at h
      by_cases h2 : r.phase = IFPhase.awaitingAck
      · rw [if_pos h2] at h
        by_cases h3 : r.msg.expectsReply = true
        · rw [if_pos h3] at h
          exact absurd (congrArg Prod.fst h).symm (by simp)
        · rw [if_neg h3] at h
          exact absurd (congrArg Prod.fst h).symm (by simp)
      · rw [if_neg h2] at h
        exact absurd (congrArg Prod.fst h).symm (by simp)
    · rw [if_neg h1] at h
      by_cases h4 : f = [z.NAK] ∨ f = [z.CAN]
      · rw [if_pos h4] at h
        by_cases h5 : r.retries < MESSAGE_MAX_RETRIES
        · rw [if_pos h5] at h
          have h7 : (some { r with retries := r.retries + 1 } : InflightMessage) = if1 :=
            congrArg Prod.snd h
          rw [← h7]
          rfl
        · rw [if_neg h5] at h
          exact absurd (congrArg Prod.fst h).symm (by simp)
      · rw [if_neg h4] at h
        by_cases h6 : r.phase = IFPhase.awaitingResponse ∧ matchesReply r.msg f = true
        · rw [if_pos h6] at h
          exact absurd (congrArg Prod.fst h).symm (by simp)
        · rw [if_neg h6] at h
          exact absurd (congrArg Prod.fst h).symm (by simp)

/-- The record census an in-flight state ought to show: empty when idle,
the active record's message id otherwise. -/
def recordsOf : InflightMessage → List Nat
  | none => []
  | some r => [r.msg.mid]

/-- Coupling invariant of the driver system: the record census mirrors the
in-flight record; while the transmit loop is between an accepted
`StartMessage` and its `_SendRaw`, the active record is the dequeued
message's; and whatever a record's original transmission wrote on the wire
is exactly that record's message payload. -/
def DrvInv (s : DrvState) : Prop :=
  s.records = recordsOf s.inflight ∧
  (∀ m : Message, s.tx = .sending m → ∀ r : IFRec, s.inflight = some r → r.msg = m) ∧
  (∀ r : IFRec, s.inflight = some r → ∀ b : List Nat, r.firstSent = some b →
    b = r.msg.payload)

/-- The coupling invariant is preserved by every step. -/
theorem DrvInv_step {s t : DrvState} {l : DrvLabel} (hinv : DrvInv s)
    (hstep : DrvStep s l t) : DrvInv t := by
  obtain ⟨h1, h2, h3⟩ := hinv
  cases hstep with
  | submit m => exact ⟨h1, h2, h3⟩
  | txDequeue m rest hq htx =>
    exact ⟨h1, fun m' htx' => absurd htx' (by simp), h3⟩
  | txStartOk m if1 htx hstart =>
    cases hin : s.inflight with
    | some r =>
      rw [hin] at hstart
      exact absurd (congrArg Prod.fst hstart) (by simp [InflightMessage.StartMessage])
    | none =>
      rw [hin] at hstart
      unfold InflightMessage.StartMessage at hstart
      have hif : if1 = some ⟨m, .awaitingAck, 0, none⟩ :=
        (congrArg Prod.snd hstart).symm
      subst hif
      rw [hin] at h1
      refine ⟨?_, ?_, ?_⟩
      · show s.records ++ [m.mid] = recordsOf (some ⟨m, .awaitingAck, 0, none⟩)
        rw [h1]; rfl
      · intro m' htx' r' hr'
        have hm : m = m' := by simpa using htx'
        have hr2 : r' = ⟨m, .awaitingAck, 0, none⟩ := by simpa using hr'.symm
        rw [hr2, ← hm]
      · intro r' hr' b hb
        have hr2 : r' = ⟨m, .awaitingAck, 0, none⟩ := by simpa using hr'.symm
        rw [hr2] at hb
        exact absurd hb (by simp)
  | txStartFail m if1 htx hstart =>
    cases hin : s.inflight with
    | none =>
      rw [hin] at hstart
      exact absurd (congrArg Prod.fst hstart) (by simp [InflightMessage.StartMessage])
    | some r =>
      rw [hin] at hstart
      unfold InflightMessage.StartMessage at hstart
      have hif : if1 = some r := (congrArg Prod.snd hstart).symm
      subst hif
      refine ⟨?_, fun m' htx' => absurd htx' (by simp), ?_⟩
      · show s.records = recordsOf (some r)
        rw [← hin]; exact h1
      · intro r' hr' b hb
        obtain rfl := Option.some.inj hr'.symm
        exact h3 r' hin b hb
  | txSend m htx =>
    refine ⟨?_, fun m' htx' => absurd htx' (by simp), ?_⟩
    · show s.records = recordsOf (s.inflight.map _)
      cases hin : s.inflight with
      | none => rw [hin] at h1; simpa [recordsOf] using h1
      | some r => rw [hin] at h1; simpa [recordsOf] using h1
    · intro r' hr' b hb
      cases hin : s.inflight with
      | none => rw [hin] at hr'; exact absurd hr' (by simp)
      | some r =>
        rw [hin] at hr'
        have hr2 : r' = { r with firstSent := some m.payload } := by
          simpa using hr'.symm
        subst hr2
        simp only [Option.some.injEq] at hb
        rw [← hb]
        show m.payload = r.msg.payload
        rw [h2 m htx r hin]
  | txComplete m htx hres =>
    exact ⟨h1, fun m' htx' => absurd htx' (by simp), h3⟩
  | timeoutResolve m r htx hin =>
    exact ⟨rfl, fun m' htx' r' hr' => Option.noConfusion hr',
      fun r' hr' => Option.noConfusion hr'⟩
  | rxRead frame a if1 hrx hra =>
    cases hif : if1 with
    | none =>
      subst hif
      exact ⟨by simp [recordsOf], fun m' htx' r' hr' => Option.noConfusion hr',
        fun r' hr' => Option.noConfusion hr'⟩
    | some r' =>
      subst hif
      obtain ⟨r, hr, hmsg, hfs⟩ := nextAction_some s.inflight frame a r' hra
      refine ⟨?_, ?_, ?_⟩
      · show (if (some r' : InflightMessage).isNone then [] else s.records) =
          recordsOf (some r')
        rw [hr] at h1
        show s.records = recordsOf (some r')
        simp only [recordsOf] at h1 ⊢
        rw [hmsg, h1]
      · intro m' htx' r'' hr''
        obtain rfl := Option.some.inj hr''.symm
        rw [hmsg]
        exact h2 m' htx' r hr
      · intro r'' hr'' b hb
        obtain rfl := Option.some.inj hr''.symm
        rw [hfs] at hb
        rw [hmsg]
        exact h3 r hr b hb
  | rxExecAck frame hrx => exact ⟨h1, h2, h3⟩
  | rxExecRetry frame r hrx hin => exact ⟨h1, h2, h3⟩
  | rxExecPropagate frame hrx => exact ⟨h1, h2, h3⟩
  | rxExecNothing frame hrx => exact ⟨h1, h2, h3⟩

/-- The coupling invariant holds in every reachable state. -/
theorem DrvInv_reachable {s : DrvState} (h : DrvReachable s) : DrvInv s := by
  induction h with
  | init =>
    exact ⟨rfl, fun m htx => absurd htx (by simp [DrvState.init]),
      fun r hr => absurd hr (by simp [DrvState.init])⟩
  | step hreach hstep ih => exact DrvInv_step ih hstep

/-- C1: at most one in-flight record is active at any time.  In every
reachable state of the driver system — for any sequence of submissions and
any interleaving of the loops — the census of active in-flight records has
at most one element: the transmit loop creates a record only through
`StartMessage`, which accepts only when idle, and does not dequeue the next
message until `WaitForMessageCompletion` has returned for the current
one. -/
theorem single_outstanding (s : DrvState) (h : DrvReachable s) :
    s.records.length ≤ 1 := by
  obtain ⟨h1, -, -⟩ := DrvInv_reachable h
  rw [h1]
  cases s.inflight <;> simp [recordsOf]

/-- The message used by the concrete driver traces below. -/
def mA : Message := ⟨some 5, [1, 2, 3], true, none, 42⟩

/-- Trace: `mA` submitted. -/
def drvS1 : DrvState := { DrvState.init with out_queue := [mA] }

/-- Trace: the transmit loop has dequeued `mA`. -/
def drvS2 : DrvState := { drvS1 with out_queue := [], tx := .starting mA }

/-- Trace: `StartMessage` accepted `mA`; a record is active. -/
def drvS3 : DrvState :=
  { drvS2 with inflight := some ⟨mA, .awaitingAck, 0, none⟩, tx := .sending mA,
               records := [42] }

/-- Trace: `_SendRaw` wrote the original transmission. -/
def drvS4 : DrvState :=
  { drvS3 with wire := [([1, 2, 3], "")],
               inflight := some ⟨mA, .awaitingAck, 0, some [1, 2, 3]⟩,
               tx := .waiting mA }

/-- Trace: a negative-acknowledge arrived; the receive loop has computed
`DO_RETRY` but not yet executed the resend. -/
def drvS5 : DrvState :=
  { drvS4 with rx := .decided .DO_RETRY [z.NAK],
               inflight := some ⟨mA, .awaitingAck, 1, some [1, 2, 3]⟩ }

/-- Trace: the completion timeout resolved the record in between: the
retry decision is still pending but the record is gone. -/
def drvS6 : DrvState := { drvS5 with inflight := none, records := [] }

/-- `drvS3` is reachable. -/
theorem drvReach3 : DrvReachable drvS3 :=
  DrvReachable.step
    (DrvReachable.step
      (DrvReachable.step DrvReachable.init (DrvStep.submit DrvState.init mA))
      (DrvStep.txDequeue drvS1 mA [] rfl rfl))
    (DrvStep.txStartOk drvS2 mA (some ⟨mA, .awaitingAck, 0, none⟩) rfl rfl)

/-- `drvS5` is reachable. -/
theorem drvReach5 : DrvReachable drvS5 :=
  DrvReachable.step
    (DrvReachable.step drvReach3 (DrvStep.txSend drvS3 mA rfl))
    (DrvStep.rxRead drvS4 [z.NAK] .DO_RETRY
      (some ⟨mA, .awaitingAck, 1, some [1, 2, 3]⟩) rfl (by decide))

/-- Witness for `single_outstanding`: in the reachable state `drvS3` a
record for `mA` is active and the census length is (at most) one. -/
theorem single_outstanding_witness :
    DrvReachable drvS3 ∧ drvS3.records.length ≤ 1 :=
  ⟨drvReach3, single_outstanding drvS3 drvReach3⟩

/-- C8: whenever the receive loop executes the retry directed by the state
machine for a negative-acknowledge or collision byte, the bytes it writes
(line 383, `self._inflight.GetMessage().payload`) are exactly the current
in-flight message's payload — and therefore identical to whatever that
record's original transmission wrote (line 336 wrote the dequeued message's
payload, recorded in `firstSent`), unchanged. -/
theorem retry_resends_original_payload (s t : DrvState) (hreach : DrvReachable s)
    (hstep : DrvStep s .rxExec t) (p : List Nat)
    (hw : t.wire = s.wire ++ [(p, "re-try")]) :
    ∃ r : IFRec, s.inflight = some r ∧ p = r.msg.payload ∧
      ∀ b : List Nat, r.firstSent = some b → p = b := by
  obtain ⟨-, -, h3⟩ := DrvInv_reachable hreach
  cases hstep with
  | rxExecAck frame hrx =>
    have h5 : [(zmessage.RAW_MESSAGE_ACK, "")] = [(p, "re-try")] :=
      List.append_cancel_left hw
    have h6 : ("" : String) = "re-try" := congrArg Prod.snd (List.cons.inj h5).1
    exact absurd h6 (by decide)
  | rxExecRetry frame r hrx hin =>
    have h5 : [(r.msg.payload, "re-try")] = [(p, "re-try")] :=
      List.append_cancel_left hw
    have hp : r.msg.payload = p := congrArg Prod.fst (List.cons.inj h5).1
    refine ⟨r, hin, hp.symm, ?_⟩
    intro b hb
    rw [← hp]
    exact (h3 r hin b hb).symm
  | rxExecPropagate frame hrx =>
    have h5 : [(zmessage.RAW_MESSAGE_ACK, "")] = [(p, "re-try")] :=
      List.append_cancel_left hw
    have h6 : ("" : String) = "re-try" := congrArg Prod.snd (List.cons.inj h5).1
    exact absurd h6 (by decide)
  | rxExecNothing frame hrx =>
    simp at hw

/-- Witness for `retry_resends_original_payload`: from the reachable state
`drvS5` the retry write puts `[1, 2, 3]` on the wire — the payload of `mA`
and the bytes of the original transmission. -/
theorem retry_resends_original_payload_witness :
    ∃ r : IFRec, drvS5.inflight = some r ∧ [1, 2, 3] = r.msg.payload ∧
      ∀ b : List Nat, r.firstSent = some b → [1, 2, 3] = b :=
  retry_resends_original_payload drvS5
    { drvS5 with wire := drvS5.wire ++ [([1, 2, 3], "re-try")], rx := .reading }
    drvReach5
    (DrvStep.rxExecRetry drvS5 [z.NAK] ⟨mA, .awaitingAck, 1, some [1, 2, 3]⟩ rfl rfl)
    [1, 2, 3] rfl

/-- C9 counterexample: the claim says that whenever the receive loop's next
action is retry, `GetMessage()` is not `None`.  But the completion timeout
can resolve and destroy the record between the retry decision and the
dereference of line 383 (the "small race" the source's own comment at lines
381-382 acknowledges): the state `drvS6` is reachable, the receive loop is
about to execute a retry there, and `GetMessage()` is `None` — the
dereference of `.payload` would fail. -/
theorem retry_decision_message_can_vanish :
    DrvReachable drvS6 ∧ drvS6.rx = .decided .DO_RETRY [z.NAK] ∧
      drvS6.inflight.GetMessage = none :=
  ⟨DrvReachable.step drvReach5
      (DrvStep.timeoutResolve drvS5 mA ⟨mA, .awaitingAck, 1, some [1, 2, 3]⟩ rfl rfl),
    rfl, rfl⟩

/-- C9 amended: at the moment the retry decision is made — immediately
after `NextActionForReceivedMessage` returns `DO_RETRY` — the in-flight
record still holds a message (`GetMessage()` is not `None`); it can only be
`None` at the dereference if an intervening resolution (such as the
completion timeout, as in the counterexample) clears the record between the
decision and the resend. -/
theorem retry_decision_has_message (s t : DrvState) (f : List Nat)
    (hstep : DrvStep s (.rxRead f) t)
    (hdec : t.rx = .decided .DO_RETRY f) :
    t.inflight.GetMessage ≠ none := by
  cases hstep with
  | rxRead g a if1 hrx hra =>
    have ha : a = .DO_RETRY := by
      have h6 := hdec
      simp only [RxPhase.decided.injEq] at h6
      exact h6.1
    subst ha
    have hsome := nextAction_retry_some s.inflight f if1 hra
    show if1.GetMessage ≠ none
    cases if1 with
    | none => exact absurd hsome (by simp)
    | some r => simp [InflightMessage.GetMessage]

/-- Witness for `retry_decision_has_message`: the decision step from
`drvS4` to `drvS5` leaves the record for `mA` in place. -/
theorem retry_decision_has_message_witness :
    drvS5.inflight.GetMessage ≠ none :=
  retry_decision_has_message drvS4 drvS5 [z.NAK]
    (DrvStep.rxRead drvS4 [z.NAK] .DO_RETRY
      (some ⟨mA, .awaitingAck, 1, some [1, 2, 3]⟩) rfl (by decide))
    rfl

/-!  ## `Terminate` and the termination barrier (lines 190-205, 251-272): claim C6 -/

/-- The child threads spawned by `Driver.__init__` (lines 190-194). -/
def child_threads : List String := ["_tx_thread", "_rx_thread", "_forwarding_thread"]

/-- The party count of `self._termination_barrier = threading.Barrier(
len(child_threads) + 1)` (line 198): each child thread plus the calling
thread. -/
def terminationBarrierParties : Nat := child_threads.length + 1

/-- Status of one barrier participant: still inside its loop, arrived at
`self._termination_barrier.wait()`, or released through the barrier. -/
inductive PStatus
  | running
  | atBarrier
  | passed
deriving DecidableEq, Repr

/-- State of the shutdown protocol: the shared `_terminate` flag, whether
the barrier message's callback has released `Terminate`'s lock, the status
of the three worker loops (named after lines 190-193) and of the calling
thread inside `Terminate`. -/
structure TermState where
  terminate : Bool
  lockReleased : Bool
  tx_thread : PStatus
  rx_thread : PStatus
  forwarding_thread : PStatus
  caller : PStatus
deriving DecidableEq, Repr

/-- How many participants are currently waiting at the barrier. -/
def arrivedParties (s : TermState) : Nat :=
  (if s.tx_thread = .atBarrier then 1 else 0) +
  (if s.rx_thread = .atBarrier then 1 else 0) +
  (if s.forwarding_thread = .atBarrier then 1 else 0) +
  (if s.caller = .atBarrier then 1 else 0)

/-- Steps of the shutdown protocol (lines 251-272 and 304-325).
`barrierCallback` is the callback `cb` of the final barrier message (lines
259-261): it sets `self._terminate = True` and releases the lock
`Terminate` is blocked on.  `callerToBarrier` is `Terminate` passing its
second `lock.acquire()` and reaching `self._termination_barrier.wait()`
(line 270).  A worker may leave its loop and reach its own
`self._termination_barrier.wait()` (line 323) only once termination has
been signalled.  `barrierRelease` models `threading.Barrier`: nobody
proceeds until the number of waiting parties equals the barrier's party
count, and then all are released together. -/
inductive TermStep : TermState → TermState → Prop
  | barrierCallback (s : TermState) :
      TermStep s { s with terminate := true, lockReleased := true }
  | callerToBarrier (s : TermState) (h1 : s.caller = .running)
      (h2 : s.lockReleased = true) :
      TermStep s { s with caller := .atBarrier }
  | txExit (s : TermState) (h1 : s.tx_thread = .running)
      (h2 : s.terminate = true) :
      TermStep s { s with tx_thread := .atBarrier }
  | rxExit (s : TermState) (h1 : s.rx_thread = .running)
      (h2 : s.terminate = true) :
      TermStep s { s with rx_thread := .atBarrier }
  | fwdExit (s : TermState) (h1 : s.forwarding_thread = .running)
      (h2 : s.terminate = true) :
      TermStep s { s with forwarding_thread := .atBarrier }
  | barrierRelease (s : TermState)
      (h : arrivedParties s = terminationBarrierParties) :
      TermStep s { s with tx_thread := .passed, rx_thread := .passed,
                          forwarding_thread := .passed, caller := .passed }

/-- State when `Terminate` has posted the shutdown marker and the barrier
message and blocks on the lock: flag not yet set, everyone running. -/
def TermState.init : TermState := ⟨false, false, .running, .running, .running, .running⟩

/-- Reachability of the shutdown protocol. -/
inductive TermReachable : TermState → Prop
  | init : TermReachable TermState.init
  | step {s t : TermState} : TermReachable s → TermStep s t → TermReachable t

/-- C6: `Terminate` (lines 251-272) enqueues a final barrier message whose
callback sets the termination flag (and releases the caller's lock), then
waits at a rendezvous barrier sized for all worker loops plus the calling
thread (line 198: `threading.Barrier(len(child_threads) + 1)`, i.e. 4
parties).  Because the barrier releases only when all four parties have
arrived, and each worker arrives only after leaving its loop, in every
reachable state in which `Terminate` has returned no worker loop is still
executing. -/
theorem terminate_waits_for_all_workers :
    terminationBarrierParties = child_threads.length + 1 ∧
    terminationBarrierParties = 4 ∧
    ∀ s : TermState, TermReachable s → s.caller = .passed →
      s.tx_thread ≠ .running ∧ s.rx_thread ≠ .running ∧
        s.forwarding_thread ≠ .running := by
  refine ⟨rfl, rfl, ?_⟩
  have key : ∀ s : TermState, TermReachable s →
      (s.caller = .passed →
        s.tx_thread ≠ .running ∧ s.rx_thread ≠ .running ∧
          s.forwarding_thread ≠ .running) := by
    intro s hs
    induction hs with
    | init => intro hc; exact absurd hc (by simp [TermState.init])
    | step hreach hstep ih =>
      cases hstep with
      | barrierCallback => intro hc; exact ih hc
      | callerToBarrier h1 h2 =>
        intro hc; exact absurd hc (by simp)
      | txExit h1 h2 =>
        intro hc
        obtain ⟨-, hb, hc2⟩ := ih hc
        exact ⟨by simp, hb, hc2⟩
      | rxExit h1 h2 =>
        intro hc
        obtain ⟨ha, -, hc2⟩ := ih hc
        exact ⟨ha, by simp, hc2⟩
      | fwdExit h1 h2 =>
        intro hc
        obtain ⟨ha, hb, -⟩ := ih hc
        exact ⟨ha, hb, by simp⟩
      | barrierRelease h =>
        intro hc
        exact ⟨by simp, by simp, by simp⟩
  intro s hs
  exact key s hs

/-- The shutdown run used as the witness for
`terminate_waits_for_all_workers`: callback fires, the three workers leave
their loops, the caller reaches the barrier, the barrier releases all
four. -/
def termFinal : TermState := ⟨true, true, .passed, .passed, .passed, .passed⟩

/-- Witness for `terminate_waits_for_all_workers`: after the full shutdown
run, `Terminate` has returned and indeed no worker loop is running. -/
theorem terminate_waits_for_all_workers_witness :
    TermReachable termFinal ∧
      (termFinal.tx_thread ≠ .running ∧ termFinal.rx_thread ≠ .running ∧
        termFinal.forwarding_thread ≠ .running) := by
  have h1 : TermReachable { TermState.init with terminate := true, lockReleased := true } :=
    TermReachable.step TermReachable.init (TermStep.barrierCallback TermState.init)
  have h2 : TermReachable (⟨true, true, .atBarrier, .running, .running, .running⟩ : TermState) :=
    TermReachable.step h1 (TermStep.txExit _ rfl rfl)
  have h3 : TermReachable (⟨true, true, .atBarrier, .atBarrier, .running, .running⟩ : TermState) :=
    TermReachable.step h2 (TermStep.rxExit _ rfl rfl)
  have h4 : TermReachable (⟨true, true, .atBarrier, .atBarrier, .atBarrier, .running⟩ : TermState) :=
    TermReachable.step h3 (TermStep.fwdExit _ rfl rfl)
  have h5 : TermReachable (⟨true, true, .atBarrier, .atBarrier, .atBarrier, .atBarrier⟩ : TermState) :=
    TermReachable.step h4 (TermStep.callerToBarrier _ rfl rfl)
  have h6 : TermReachable termFinal :=
    TermReachable.step h5 (TermStep.barrierRelease _ (by decide))
  exact ⟨h6, (terminate_waits_for_all_workers.2.2 termFinal h6 rfl)⟩
